import Mathlib

/-!
Verification of the ecobici-api prediction pipeline against its spec.

Shallow embedding of the code in `app/services/predictor.py`,
`app/services/lags.py`, `app/services/gbfs.py` and `app/api/routes.py`.

Modelling conventions, fixed once for the whole file:

* Timestamps are minutes since an epoch chosen to fall on a local midnight
  that starts a Monday, as integers (`ℤ`).  Mexico City civil time is a
  fixed UTC-6 offset (the code's `pytz` zone has no DST in the served
  period, and `lags.py` hard-codes `timedelta(hours=-6)`), so the
  conversion `timestamp.astimezone(CDMX_TZ)` is `t - 360` minutes.
* Python/numpy floats are modelled as exact rationals (`ℚ`) wherever the
  code only moves finite values around; where the distinction between
  finite, NaN and infinite floats matters (the feature-vector validation
  of `_assemble_features`) the dedicated type `FVal` keeps the four
  classes apart.  Division `bikes_available / capacity` is rational
  division (with Lean's `x / 0 = 0` convention at the never-observed
  `capacity = 0` corner).
* The XGBoost regressors are opaque artifacts; a model's raw output on the
  assembled vector is an arbitrary `Option ℚ` parameter (`none` models the
  per-horizon inference exception caught at lines 669-678 of
  `predictor.py`, `some delta` a raw prediction).
* File-system state (which daily parquets exist, which rows a station has,
  which snapshot files exist) is passed in explicitly: `filesExist`,
  `records`, and for the legacy lag service a lookup function.
-/

namespace Ecobici

/-! ### Exit codes (`PredictorService`, predictor.py lines 30-35) -/

def SUCCESS : ℕ := 0

def STATION_NOT_FOUND : ℕ := 1

def INSUFFICIENT_DATA : ℕ := 2

def MODEL_NOT_LOADED : ℕ := 3

def INVALID_FEATURES : ℕ := 4

/-! ### Float values

`FVal` classifies an IEEE double the way the validation code can observe
it: a finite value (kept exactly as a rational), a NaN, or an infinity of
either sign.  `np.isnan` sees only the `nan` class. -/

inductive FVal where
  | finite (q : ℚ)
  | nan
  | inf
  | neginf
deriving DecidableEq

def FVal.isNan : FVal → Bool
  | .nan => true
  | _ => false

def FVal.isFinite : FVal → Bool
  | .finite _ => true
  | _ => false

/-! ### GBFS snapshot rows (the per-station parquet rows of `_load_gbfs_data`)

A row keeps the snapshot time (UTC minutes), `bikes_available` and
`capacity`.  `ocu` is the occupancy column computed at line 246. -/

structure Row where
  time : ℤ
  bikes : ℕ
  capacity : ℕ
deriving DecidableEq

def Row.ocu (r : Row) : ℚ := (r.bikes : ℚ) / (r.capacity : ℚ)

/-! ### Snapshot search with ±5 min tolerance (predictor.py lines 248-271)

`withinTol` is the mask of line 261; `argminStep` folds pandas's
`argmin` over `|snapshot_time - target|` (first minimum wins, line 265);
`findClosest` is the mask-then-argmin selection for one target time. -/

def withinTol (target : ℤ) (r : Row) : Bool :=
  decide (target - 5 ≤ r.time) && decide (r.time ≤ target + 5)

def argminStep (target : ℤ) (best : Option Row) (r : Row) : Option Row :=
  match best with
  | none => some r
  | some b => if |r.time - target| < |b.time - target| then some r else some b

def findClosest (records : List Row) (target : ℤ) : Option Row :=
  (records.filter (withinTol target)).foldl (argminStep target) none

/-! ### Lag extraction (`_load_gbfs_data`, predictor.py lines 184-302) -/

/-- The lag offsets of line 250: current time plus six lags, in minutes.
There is no 30-minute offset here. -/
def lagMinutes : List ℤ := [0, 10, 20, 60, 120, 1380, 1440]

/-- One closest-snapshot search per offset, in the loop order of line 256. -/
def rawLags (records : List Row) (t : ℤ) : List (Option Row) :=
  lagMinutes.map (fun m => findClosest records (t - m))

/-- The `ocu` value of each matched snapshot (line 266), `none` when the
offset had no snapshot within tolerance (line 271). -/
def lagVals (records : List Row) (t : ℤ) : List (Option ℚ) :=
  (rawLags records t).map (Option.map Row.ocu)

/-- The backward scan of lines 286-289: the value of the nearest
already-filled smaller index, i.e. the last `some` of the processed
prefix. -/
def backFill (l : List (Option ℚ)) : Option ℚ :=
  l.reverse.findSome? id

/-- The forward-fill loop of lines 283-289: indices are processed in
ascending order, and a missing entry takes the nearest non-missing value
scanning back through the (already updated) prefix. -/
def ffill (l : List (Option ℚ)) : List (Option ℚ) :=
  l.foldl (fun acc x => acc ++ [x.orElse (fun _ => backFill acc)]) []

/-- `capacity` is taken from the first matching offset's closest snapshot
(lines 267-268: it is set once, at the first match in loop order). -/
def firstCapacity (l : List (Option Row)) : Option ℕ :=
  ((l.filterMap id).head?).map Row.capacity

/-- Line 297, `capacity if capacity else 20`: Python treats both `None`
and `0` as falsy, so a missing capacity and a zero capacity both fall
back to the hard-coded 20. -/
def pyCap : Option ℕ → ℕ
  | none => 20
  | some 0 => 20
  | some (k + 1) => k + 1

/-- Reading one filled lag value out of the list (the dict reads of
`result["ocu"]` etc. after the completeness check has passed). -/
def getQ (l : List (Option ℚ)) (i : ℕ) : ℚ :=
  (l.getD i none).getD 0

/-- The complete lag data a successful `_load_gbfs_data` returns: the
seven occupancy values plus the capacity. -/
structure LagData where
  ocu : ℚ
  lag1 : ℚ
  lag2 : ℚ
  lag6 : ℚ
  lag12 : ℚ
  lag138 : ℚ
  lag144 : ℚ
  capacity : ℕ
deriving DecidableEq

/-- `_load_gbfs_data` (predictor.py lines 184-302).  `filesExist = false`
models the no-parquet-found early exit of line 219; an empty `records`
list models the station filter leaving nothing (line 234). -/
def loadGbfsData (filesExist : Bool) (records : List Row) (t : ℤ) :
    Option LagData × ℕ :=
  if filesExist = false then (none, INSUFFICIENT_DATA)
  else if records.isEmpty then (none, STATION_NOT_FOUND)
  else
    let vals := lagVals records t
    match vals.getD 0 none with
    | none => (none, INSUFFICIENT_DATA)
    | some _ =>
      let filled := ffill vals
      if filled.any Option.isNone then (none, INSUFFICIENT_DATA)
      else
        (some { ocu := getQ filled 0, lag1 := getQ filled 1, lag2 := getQ filled 2,
                lag6 := getQ filled 3, lag12 := getQ filled 4, lag138 := getQ filled 5,
                lag144 := getQ filled 6,
                capacity := pyCap (firstCapacity (rawLags records t)) },
         SUCCESS)

/-! ### Temporal features (`_calculate_temporal_features`, predictor.py
lines 304-344, and `_is_operating_at_time`, lines 346-350)

Local civil time fields from a local-minutes timestamp.  The epoch is a
local midnight starting a Monday, so `weekdayOf` follows Python's
`datetime.weekday()` convention (0 = Monday). -/

def hourOf (tLoc : ℤ) : ℕ := (tLoc.emod 1440).toNat / 60

def minuteOf (tLoc : ℤ) : ℕ := (tLoc.emod 1440).toNat % 60

def weekdayOf (tLoc : ℤ) : ℕ := ((tLoc.fdiv 1440).emod 7).toNat

def dayIndexOf (tLoc : ℤ) : ℤ := tLoc.fdiv 1440

/-- The coefficient of `2*pi` in the angle the code passes to `np.sin` and
`np.cos` at lines 319-320: `(hour + minute/60)/24`. -/
def timeCoef (h m : ℕ) : ℚ := ((h : ℚ) + (m : ℚ) / 60) / 24

/-- The coefficient of `2*pi` in the day-of-week angle of lines 323-324:
`weekday/7`. -/
def dayCoef (w : ℕ) : ℚ := (w : ℚ) / 7

/-- Modelled from the spec: the spec writes the time-of-day angle as
`2*pi*(minute_of_day/1440)` with `minute_of_day = 60*hour + minute`; this
is that coefficient, to be compared with `timeCoef`. -/
def specTimeCoef (h m : ℕ) : ℚ := ((60 * h + m : ℕ) : ℚ) / 1440

/-- Modelled from the spec: the spec's day-of-week coefficient
`weekday/7`, to be compared with `dayCoef`. -/
def specDayCoef (w : ℕ) : ℚ := (w : ℚ) / 7

/-- `_is_operating_at_time` (lines 346-350): the 05:00-00:30 operating
window, `(hour >= 5) or (hour == 0 and minute <= 30)`. -/
def isOperatingAtTime (tLoc : ℤ) : Bool :=
  decide (5 ≤ hourOf tLoc) || (decide (hourOf tLoc = 0) && decide (minuteOf tLoc ≤ 30))

/-- The dictionary `_calculate_temporal_features` returns (all values are
floats in the code; all are finite). -/
structure TemporalFeats where
  time_sin : ℚ
  time_cos : ℚ
  day_sin : ℚ
  day_cos : ℚ
  is_weekend : ℚ
  is_holiday : ℚ
  is_operating : ℚ
deriving DecidableEq

/-- `_calculate_temporal_features` (lines 304-344).  `sinq`/`cosq` stand
for the float routines `np.sin (2*pi*_)` / `np.cos (2*pi*_)` applied to
the angle coefficient; `holidays` is the loaded holiday calendar as a
list of day indices. -/
def calculateTemporalFeatures (sinq cosq : ℚ → ℚ) (holidays : List ℤ) (tLoc : ℤ) :
    TemporalFeats :=
  let h := hourOf tLoc
  let m := minuteOf tLoc
  let w := weekdayOf tLoc
  { time_sin := sinq (timeCoef h m)
    time_cos := cosq (timeCoef h m)
    day_sin := sinq (dayCoef w)
    day_cos := cosq (dayCoef w)
    is_weekend := if 5 ≤ w then 1 else 0
    is_holiday := if dayIndexOf tLoc ∈ holidays then 1 else 0
    is_operating := if (5 ≤ h) ∨ (h = 0 ∧ m ≤ 30) then 1 else 0 }

/-! ### Trend features (`_calculate_trends`, predictor.py lines 352-373)

On the typed, complete `LagData` the `None` guard of line 363 cannot
fire, so the computation is total. -/

structure TrendFeats where
  t1 : ℚ
  t2 : ℚ
  t6 : ℚ
  t12 : ℚ
deriving DecidableEq

def calculateTrends (d : LagData) : TrendFeats :=
  { t1 := d.ocu - d.lag1
    t2 := d.ocu - d.lag2
    t6 := d.ocu - d.lag6
    t12 := d.ocu - d.lag12 }

/-! ### Feature assembly (`_assemble_features`, predictor.py lines 375-484)

The input dictionaries.  `Option FVal` fields model pandas `.get(key,
default)` reads from the enrichment / activity tables (an absent station
or column yields the documented default); plain `FVal` fields model
direct dictionary accesses. -/

structure OcuFeats where
  ocu : FVal
  lag1 : FVal
  lag2 : FVal
  lag6 : FVal
  lag12 : FVal
  lag138 : FVal
  lag144 : FVal
deriving DecidableEq

structure EnrichedFeats where
  capacity : Option FVal
  commerce_pois_300m : Option FVal
  finance_pois_300m : Option FVal
  culture_pois_300m : Option FVal
  education_pois_300m : Option FVal
  sport_recreation_pois_300m : Option FVal
  hotels_pois_300m : Option FVal
  food_pois_300m : Option FVal
  health_pois_300m : Option FVal
  drink_pois_300m : Option FVal
  transit_nearest_station_m : Option FVal
  transit_stations_300m : Option FVal
  ids_population_300m : Option FVal
  ids_300m : Option FVal
  utm_x : Option FVal
  utm_y : Option FVal
deriving DecidableEq

structure ActivityFeats where
  station_netflow_rate : Option FVal
  station_turnover_rate : Option FVal
deriving DecidableEq

structure WeatherFeats where
  temperature_2m : FVal
  rain : FVal
  surface_pressure : FVal
  cloud_cover : FVal
  wind_speed_10m : FVal
  relative_humidity_2m : FVal
deriving DecidableEq

/-- `_assemble_features`: the 42 appends of lines 405-467 in `FEATURE_COLS`
order, then the length check of line 470 and the `np.isnan` check of
line 476.  NaN is the only non-finite class the validation looks for. -/
def assembleFeatures (ocuD : OcuFeats) (tempD : TemporalFeats) (trendsD : TrendFeats)
    (en : EnrichedFeats) (ac : ActivityFeats) (w : WeatherFeats)
    (capacityFallback : ℕ) : Option (List FVal) × ℕ :=
  let capF := en.capacity.getD (FVal.finite capacityFallback)
  let features : List FVal :=
    [ocuD.ocu, ocuD.lag1, ocuD.lag2, ocuD.lag6, ocuD.lag12, ocuD.lag138, ocuD.lag144,
     FVal.finite trendsD.t1, FVal.finite trendsD.t2, FVal.finite trendsD.t6,
     FVal.finite trendsD.t12,
     FVal.finite tempD.time_sin, FVal.finite tempD.time_cos, FVal.finite tempD.day_sin,
     FVal.finite tempD.day_cos, FVal.finite tempD.is_weekend, FVal.finite tempD.is_holiday,
     capF, FVal.finite tempD.is_operating,
     en.commerce_pois_300m.getD (FVal.finite 0),
     en.finance_pois_300m.getD (FVal.finite 0),
     en.culture_pois_300m.getD (FVal.finite 0),
     en.education_pois_300m.getD (FVal.finite 0),
     en.sport_recreation_pois_300m.getD (FVal.finite 0),
     en.hotels_pois_300m.getD (FVal.finite 0),
     en.food_pois_300m.getD (FVal.finite 0),
     en.health_pois_300m.getD (FVal.finite 0),
     en.drink_pois_300m.getD (FVal.finite 0),
     en.transit_nearest_station_m.getD (FVal.finite 500),
     en.transit_stations_300m.getD (FVal.finite 1),
     en.ids_population_300m.getD (FVal.finite 10000),
     en.ids_300m.getD (FVal.finite (1 / 2)),
     en.utm_x.getD (FVal.finite 485000),
     en.utm_y.getD (FVal.finite 2150000),
     ac.station_netflow_rate.getD (FVal.finite 0),
     ac.station_turnover_rate.getD (FVal.finite 0),
     w.temperature_2m, w.rain, w.surface_pressure, w.cloud_cover,
     w.wind_speed_10m, w.relative_humidity_2m]
  if features.length ≠ 42 then (none, INVALID_FEATURES)
  else if features.any FVal.isNan then (none, INVALID_FEATURES)
  else (some features, SUCCESS)

/-! ### Per-horizon prediction (predictor.py lines 641-678) -/

/-- `int(np.round(x))`: numpy rounds halves to even. -/
def npRound (q : ℚ) : ℤ :=
  let f := ⌊q⌋
  let r := q - (f : ℚ)
  if r < 1 / 2 then f
  else if 1 / 2 < r then f + 1
  else if f % 2 = 0 then f else f + 1

/-- `max(0, min(bikes, capacity))` (lines 661, 672, 682). -/
def clampBikes (b : ℤ) (cap : ℕ) : ℤ := max 0 (min b (cap : ℤ))

/-- One entry of the `predictions` list: horizon in minutes, predicted
occupancy, predicted (integer) bike count. -/
structure Pred where
  horizon : ℕ
  occupancy : ℚ
  bikes : ℤ
deriving DecidableEq

/-- The body of the horizon loop (lines 643-678) for one horizon: the
out-of-operating-window zero override (lines 647-654), the normal model
branch (lines 657-668, clipping occupancy to [0,1] then round-and-clamp),
and the inference-exception fallback on the current occupancy
(lines 669-678). -/
def predictHorizon (tLoc : ℤ) (h : ℕ) (modelOut : Option ℚ) (ocu : ℚ) (cap : ℕ) : Pred :=
  if isOperatingAtTime (tLoc + (h : ℤ)) = false then
    { horizon := h, occupancy := 0, bikes := 0 }
  else
    match modelOut with
    | some delta =>
      let ocuPred := max 0 (min (ocu + delta) 1)
      { horizon := h, occupancy := ocuPred, bikes := clampBikes (npRound (ocuPred * cap)) cap }
    | none =>
      { horizon := h, occupancy := ocu, bikes := clampBikes (npRound (ocu * cap)) cap }

/-- The successful result of `predict_xgboost` (lines 684-693): the
`current_state` fields that matter to the claims, plus the predictions. -/
structure XgbResult where
  occupancy : ℚ
  bikes_available : ℤ
  capacity : ℕ
  is_operating : Bool
  predictions : List Pred
deriving DecidableEq

/-- Lines 641-693 once the lag data is in hand: the three-horizon loop,
the clamped current bike count and the response record. -/
def buildResult (d : LagData) (tLoc : ℤ) (tempD : TemporalFeats)
    (modelOut : ℕ → Option ℚ) : XgbResult :=
  { occupancy := d.ocu
    bikes_available := clampBikes (npRound (d.ocu * (d.capacity : ℚ))) d.capacity
    capacity := d.capacity
    is_operating := decide (tempD.is_operating ≠ 0)
    predictions := [20, 40, 60].map
      (fun h => predictHorizon tLoc h (modelOut h) d.ocu d.capacity) }

/-- `predict_xgboost` (predictor.py lines 550-695).  `modelOut h` is the
(abstract) raw output of the horizon-`h` XGBoost model on the assembled
vector, `none` when inference raises. -/
def predict_xgboost (modelsLoaded filesExist : Bool) (records : List Row)
    (sinq cosq : ℚ → ℚ) (holidays : List ℤ) (en : EnrichedFeats) (ac : ActivityFeats)
    (w : WeatherFeats) (modelOut : ℕ → Option ℚ) (t : ℤ) : Option XgbResult × ℕ :=
  if modelsLoaded = false then (none, MODEL_NOT_LOADED)
  else
    match loadGbfsData filesExist records t with
    | (none, code) => (none, code)
    | (some d, _) =>
      let tempD := calculateTemporalFeatures sinq cosq holidays (t - 360)
      let ocuD : OcuFeats :=
        { ocu := FVal.finite d.ocu, lag1 := FVal.finite d.lag1, lag2 := FVal.finite d.lag2,
          lag6 := FVal.finite d.lag6, lag12 := FVal.finite d.lag12,
          lag138 := FVal.finite d.lag138, lag144 := FVal.finite d.lag144 }
      let acode := (assembleFeatures ocuD tempD (calculateTrends d) en ac w d.capacity).2
      if acode ≠ SUCCESS then (none, acode)
      else (some (buildResult d (t - 360) tempD modelOut), SUCCESS)

/-! ### The request path (`PredictorService.predict`, predictor.py lines
486-548, and `predict_availability`, routes.py lines 70-150) -/

/-- The numeric fields of the dictionary `GBFSService.get_station_data`
builds (gbfs.py lines 188-201).  The string/bool-valued keys
(`station_code`, `station_id`, `name`, `latitude`, `longitude`,
`is_installed`, `is_renting`, `is_returning`, `last_reported`) are
omitted; none of them is named `bikes_available` or read by the
modelled path. -/
structure StationData where
  capacity : ℕ
  num_bikes_available : ℕ
  num_docks_available : ℕ
deriving DecidableEq

/-- The numeric key-value view of that dictionary, as `dict.get` sees it. -/
def stationDataDict (sd : StationData) : List (String × ℤ) :=
  [("capacity", (sd.capacity : ℤ)),
   ("num_bikes_available", (sd.num_bikes_available : ℤ)),
   ("num_docks_available", (sd.num_docks_available : ℤ))]

/-- The fallback of predictor.py lines 534-540: `current_bikes =
int(station_data.get("bikes_available", 0))` repeated over the three
horizon keys.  The dictionary carries `num_bikes_available`, not
`bikes_available`, so the `.get` default 0 is what this evaluates to. -/
def fallbackPredictions (sd : StationData) : List (ℕ × ℤ) :=
  let current_bikes := ((stationDataDict sd).lookup "bikes_available").getD 0
  [(20, current_bikes), (40, current_bikes), (60, current_bikes)]

/-- Python-dict lookup on the predictions dictionary keyed by horizon
(`f"bikes_{horizon}min"` keys are in bijection with the horizon): the
last assignment wins. -/
def dictGet (l : List (ℕ × ℤ)) (k : ℕ) : Option ℤ :=
  ((l.filter (fun e => e.1 == k)).getLast?).map Prod.snd

/-- `PredictorService.predict` (lines 486-548): raises `RuntimeError`
(`Except.error`) when the models are not loaded (line 511), otherwise
calls `predict_xgboost` and either converts its predictions into the
horizon-keyed dictionary (lines 543-548) or substitutes the flat
fallback (lines 533-540). -/
def predictService (modelsLoaded filesExist : Bool) (records : List Row)
    (sinq cosq : ℚ → ℚ) (holidays : List ℤ) (en : EnrichedFeats) (ac : ActivityFeats)
    (w : WeatherFeats) (modelOut : ℕ → Option ℚ) (sd : StationData) (t : ℤ) :
    Except Unit (List (ℕ × ℤ)) :=
  if modelsLoaded = false then Except.error ()
  else
    match predict_xgboost modelsLoaded filesExist records sinq cosq holidays en ac w modelOut t with
    | (res, code) =>
      if code ≠ SUCCESS ∨ res = none then Except.ok (fallbackPredictions sd)
      else
        match res with
        | some r => Except.ok (r.predictions.map (fun p => (p.horizon, p.bikes)))
        | none => Except.ok (fallbackPredictions sd)

structure Predictions where
  bikes_20min : ℤ
  bikes_40min : ℤ
  bikes_60min : ℤ
deriving DecidableEq

structure PredictionResponse where
  current_bikes : ℤ
  capacity : ℤ
  predictions : Predictions
deriving DecidableEq

/-- What the route handler ends up sending: a 404, a 500-class error, or
a prediction response. -/
inductive ApiResult where
  | notFound
  | serverError
  | ok (resp : PredictionResponse)
deriving DecidableEq

/-- `predict_availability` (routes.py lines 70-150): 404 when the station
does not resolve against the feed (`stationData = none`); 500 when
`predict` raises `RuntimeError` (lines 125-130) or when a predictions
key is missing (an uncaught `KeyError` while building the response);
otherwise the response assembled at lines 132-150. -/
def predict_availability (stationData : Option StationData)
    (modelsLoaded filesExist : Bool) (records : List Row) (sinq cosq : ℚ → ℚ)
    (holidays : List ℤ) (en : EnrichedFeats) (ac : ActivityFeats) (w : WeatherFeats)
    (modelOut : ℕ → Option ℚ) (t : ℤ) : ApiResult :=
  match stationData with
  | none => ApiResult.notFound
  | some sd =>
    match predictService modelsLoaded filesExist records sinq cosq holidays en ac w modelOut sd t with
    | Except.error _ => ApiResult.serverError
    | Except.ok pd =>
      match dictGet pd 20, dictGet pd 40, dictGet pd 60 with
      | some b20, some b40, some b60 =>
        ApiResult.ok
          { current_bikes := ((stationDataDict sd).lookup "num_bikes_available").getD 0,
            capacity := ((stationDataDict sd).lookup "capacity").getD 0,
            predictions := { bikes_20min := b20, bikes_40min := b40, bikes_60min := b60 } }
      | _, _, _ => ApiResult.serverError

/-! ### Station-code resolution (`GBFSService._resolve_station_id`,
gbfs.py lines 108-132)

Station codes are Python strings, modelled as `List Char`; the mapping is
the `short_name -> station_id` association built at lines 59-66. -/

/-- Whether a string starts with a sign character, the case `str.zfill`
treats specially. -/
def headSign : List Char → Bool
  | [] => false
  | ch :: _ => ch == '+' || ch == '-'

/-- Python `str.zfill(3)`: left-fill with `'0'` to length 3 (no-op on
strings of length ≥ 3), except that a leading `'+'`/`'-'` stays first
and the zeros are inserted after it (CPython swaps the sign with the
`'0'` that landed at its position, so `"-1".zfill(3) == "-01"`). -/
def zfill3 (c : List Char) : List Char :=
  if 3 - c.length = 0 then c
  else
    match c with
    | [] => List.replicate (3 - c.length) '0'
    | ch :: rest =>
      if ch == '+' || ch == '-' then
        ch :: (List.replicate (3 - c.length) '0' ++ rest)
      else List.replicate (3 - c.length) '0' ++ (ch :: rest)

/-- Python `code.lstrip("0") or "0"` (line 128): strip leading zeros,
falling back to `"0"` when everything was stripped. -/
def stripZeros (c : List Char) : List Char :=
  match c.dropWhile (fun ch => ch == '0') with
  | [] => ['0']
  | r => r

/-- `_resolve_station_id`: exact match, then zero-padded-to-3 match, then
stripped-leading-zeros match, else not found. -/
def resolveStationId (m : List (List Char × String)) (code : List Char) : Option String :=
  match m.lookup code with
  | some sid => some sid
  | none =>
    match m.lookup (zfill3 code) with
    | some sid => some sid
    | none => m.lookup (stripZeros code)

/-! ### The legacy lag service (`LagsService`, lags.py lines 16-146)

`lookupBikes t sid` composes `_load_snapshot` at minute `t` with
`_get_bikes_from_snapshot`: `none` models a missing snapshot file, an
empty or unreadable snapshot, an absent station, or a record without
`num_bikes_available`. -/

/-- `lag_intervals` (lags.py lines 24-31): name suffix and minutes back.
There is no 1380-minute (23 h) offset here, and there is a 30-minute one. -/
def lagIntervals : List (String × ℕ) :=
  [("lag_1", 10), ("lag_2", 20), ("lag_3", 30), ("lag_6", 60), ("lag_12", 120),
   ("lag_144", 1440)]

/-- `get_lags_for_station` (lags.py lines 89-146): convert to Mexico time
(a hard-coded -6 h offset), look one exact snapshot up per offset, then,
when `current_bikes` was supplied, replace every unresolved offset with
it.  Seconds truncation is invisible at minute granularity. -/
def get_lags_for_station (lookupBikes : ℤ → String → Option ℕ) (stationId : String)
    (currentTime : ℤ) (currentBikes : Option ℕ) : List (String × Option ℕ) :=
  let tMx := currentTime - 360
  let lags := lagIntervals.map
    (fun iv => ("num_bikes_available_" ++ iv.1, lookupBikes (tMx - (iv.2 : ℤ)) stationId))
  match currentBikes with
  | some b => lags.map (fun kv => (kv.1, some (kv.2.getD b)))
  | none => lags

/-! ### Auxiliary definitions for the development -/

/-- `ffill` with the last known value carried explicitly; used only to
reason about `ffill` (the two agree, see `ffill_eq_ffillCarry`). -/
def ffillCarry (carry : Option ℚ) : List (Option ℚ) → List (Option ℚ)
  | [] => []
  | x :: rest =>
    (x.orElse (fun _ => carry)) :: ffillCarry (x.orElse (fun _ => carry)) rest

/-! Concrete inputs used by witnesses and counterexamples. -/

def enEmpty : EnrichedFeats :=
  ⟨none, none, none, none, none, none, none, none, none, none, none, none, none, none,
   none, none⟩

def acEmpty : ActivityFeats := ⟨none, none⟩

def wZero : WeatherFeats :=
  ⟨.finite 0, .finite 0, .finite 0, .finite 0, .finite 0, .finite 0⟩

/-- Weather input whose `rain` field is positive infinity (JSON `Infinity`
is accepted by the pydantic float fields of `WeatherInput`). -/
def wWithInf : WeatherFeats :=
  ⟨.finite 0, FVal.inf, .finite 0, .finite 0, .finite 0, .finite 0⟩

def ocuZeroF : OcuFeats :=
  ⟨.finite 0, .finite 0, .finite 0, .finite 0, .finite 0, .finite 0, .finite 0⟩

def tempZeroQ : TemporalFeats := ⟨0, 0, 0, 0, 0, 0, 0⟩

def trendsZeroQ : TrendFeats := ⟨0, 0, 0, 0⟩

/-- A feed metadata mapping carrying both the stripped and the 3-padded
spelling of the same short code, bound to different station ids. -/
def demoStations : List (List Char × String) := [(['1'], "A"), (['0', '0', '1'], "B")]

def zeroResult : XgbResult := ⟨0, 0, 0, false, []⟩

/-- Witness input for C1: one snapshot at the reference minute,
10 of 20 bikes, mid-morning local time. -/
def c1wRes : XgbResult :=
  ((predict_xgboost true true [⟨1000, 10, 20⟩] (fun _ => 0) (fun _ => 0) [] enEmpty
      acEmpty wZero (fun _ => some 0) 1000).1).getD zeroResult

/-- Witness input for C2: reference time 02:00 local, so every future
horizon is outside the operating window. -/
def c2wRes : XgbResult :=
  ((predict_xgboost true true [⟨480, 10, 20⟩] (fun _ => 0) (fun _ => 0) [] enEmpty
      acEmpty wZero (fun _ => some 0) 480).1).getD zeroResult

/-- Witness input for C9: the current snapshot reports capacity 7. -/
def c9wRes : XgbResult :=
  ((predict_xgboost true true [⟨1000, 5, 7⟩] (fun _ => 0) (fun _ => 0) [] enEmpty
      acEmpty wZero (fun _ => some 0) 1000).1).getD zeroResult

/-- Witness input for C4: an all-finite assembled vector. -/
def c4wList : List FVal :=
  ((assembleFeatures ocuZeroF tempZeroQ trendsZeroQ enEmpty acEmpty wZero 20).1).getD []

/-! ## Lemmas about the forward-fill -/

theorem orElse_none_right (x : Option ℚ) : (x.orElse fun _ => none) = x := by
  cases x <;> rfl

theorem orElse_assoc (a b c : Option ℚ) :
    ((a.orElse fun _ => b).orElse fun _ => c) = a.orElse fun _ => b.orElse fun _ => c := by
  cases a <;> rfl

theorem orElse_self (x b : Option ℚ) :
    ((x.orElse fun _ => b).orElse fun _ => b) = x.orElse fun _ => b := by
  cases x
  · cases b <;> rfl
  · rfl

theorem findSome_id_cons (x : Option ℚ) (l : List (Option ℚ)) :
    (x :: l).findSome? id = x.orElse fun _ => l.findSome? id := by
  cases x <;> simp [List.findSome?_cons]

theorem findSome_id_append (l₁ l₂ : List (Option ℚ)) :
    (l₁ ++ l₂).findSome? id = (l₁.findSome? id).orElse fun _ => l₂.findSome? id := by
  induction l₁ with
  | nil => simp [List.findSome?]
  | cons x l ih =>
    simp only [List.cons_append, findSome_id_cons, ih, orElse_assoc]

theorem backFill_nil : backFill [] = none := rfl

theorem backFill_cons (x : Option ℚ) (l : List (Option ℚ)) :
    backFill (x :: l) = (backFill l).orElse fun _ => x := by
  simp only [backFill, List.reverse_cons, findSome_id_append, findSome_id_cons,
    List.findSome?_nil]
  rw [orElse_none_right]

theorem backFill_append_singleton (l : List (Option ℚ)) (y : Option ℚ) :
    backFill (l ++ [y]) = y.orElse fun _ => backFill l := by
  simp only [backFill, List.reverse_append, List.reverse_singleton, List.singleton_append,
    findSome_id_cons]

theorem ffill_foldl_eq (l : List (Option ℚ)) :
    ∀ acc : List (Option ℚ),
      l.foldl (fun acc x => acc ++ [x.orElse (fun _ => backFill acc)]) acc =
        acc ++ ffillCarry (backFill acc) l := by
  induction l with
  | nil => intro acc; simp [ffillCarry]
  | cons x rest ih =>
    intro acc
    simp only [List.foldl_cons, ffillCarry]
    rw [ih, backFill_append_singleton, orElse_self, List.append_assoc, List.singleton_append]

theorem ffill_eq_ffillCarry (l : List (Option ℚ)) : ffill l = ffillCarry none l := by
  simpa [backFill_nil] using ffill_foldl_eq l []

theorem ffillCarry_getD (l : List (Option ℚ)) :
    ∀ (carry : Option ℚ) (i : ℕ), i < l.length →
      (ffillCarry carry l).getD i none =
        (backFill (l.take (i + 1))).orElse fun _ => carry := by
  induction l with
  | nil => intro carry i hi; simp at hi
  | cons x rest ih =>
    intro carry i hi
    cases i with
    | zero =>
      simp only [ffillCarry, List.getD_cons_zero, List.take_succ_cons, List.take_zero,
        backFill_cons, backFill_nil]
      cases x <;> rfl
    | succ j =>
      have hj : j < rest.length := by simpa using Nat.lt_of_succ_lt_succ hi
      simp only [ffillCarry, List.getD_cons_succ, List.take_succ_cons, backFill_cons]
      rw [ih _ j hj, orElse_assoc]

theorem ffill_getD (l : List (Option ℚ)) (i : ℕ) (hi : i < l.length) :
    (ffill l).getD i none = backFill (l.take (i + 1)) := by
  rw [ffill_eq_ffillCarry, ffillCarry_getD l none i hi, orElse_none_right]

theorem ffillCarry_someCarry_isSome (l : List (Option ℚ)) :
    ∀ (v : ℚ) (x : Option ℚ), x ∈ ffillCarry (some v) l → x.isSome = true := by
  induction l with
  | nil => intro v x hx; simp [ffillCarry] at hx
  | cons a rest ih =>
    intro v x hx
    cases a with
    | some b =>
      simp only [ffillCarry, List.mem_cons] at hx
      rcases hx with rfl | hx
      · rfl
      · exact ih b x (by simpa [Option.orElse] using hx)
    | none =>
      simp only [ffillCarry, List.mem_cons] at hx
      rcases hx with rfl | hx
      · rfl
      · exact ih v x (by simpa [Option.orElse] using hx)

theorem ffill_isSome_of_head (v : ℚ) (rest : List (Option ℚ)) :
    ∀ x ∈ ffill (some v :: rest), x.isSome = true := by
  intro x hx
  rw [ffill_eq_ffillCarry] at hx
  simp only [ffillCarry, List.mem_cons] at hx
  rcases hx with rfl | hx
  · rfl
  · exact ffillCarry_someCarry_isSome rest v x (by simpa [Option.orElse] using hx)

/-! ## Lemmas about the closest-snapshot search -/

theorem withinTol_iff (t : ℤ) (r : Row) :
    withinTol t r = true ↔ |r.time - t| ≤ 5 := by
  simp only [withinTol, Bool.and_eq_true, decide_eq_true_eq, abs_le]
  omega

theorem argmin_foldl_spec (t : ℤ) (l : List Row) :
    ∀ b row : Row, l.foldl (argminStep t) (some b) = some row →
      (row = b ∨ row ∈ l) ∧ |row.time - t| ≤ |b.time - t| ∧
        ∀ rr ∈ l, |row.time - t| ≤ |rr.time - t| := by
  induction l with
  | nil =>
    intro b row h
    simp only [List.foldl_nil, Option.some.injEq] at h
    subst h
    exact ⟨Or.inl rfl, le_refl _, by simp⟩
  | cons r rest ih =>
    intro b row h
    simp only [List.foldl_cons] at h
    by_cases hlt : |r.time - t| < |b.time - t|
    · have h' : rest.foldl (argminStep t) (some r) = some row := by
        simpa [argminStep, hlt] using h
      obtain ⟨hm, hb, hall⟩ := ih r row h'
      refine ⟨?_, hb.trans hlt.le, ?_⟩
      · rcases hm with rfl | hm
        · exact Or.inr (List.mem_cons_self _ _)
        · exact Or.inr (List.mem_cons_of_mem _ hm)
      · intro rr hrr
        rcases List.mem_cons.mp hrr with rfl | hmem
        · exact hb
        · exact hall rr hmem
    · have h' : rest.foldl (argminStep t) (some b) = some row := by
        simpa [argminStep, hlt] using h
      obtain ⟨hm, hb, hall⟩ := ih b row h'
      refine ⟨?_, hb, ?_⟩
      · rcases hm with rfl | hm
        · exact Or.inl rfl
        · exact Or.inr (List.mem_cons_of_mem _ hm)
      · intro rr hrr
        rcases List.mem_cons.mp hrr with rfl | hmem
        · exact hb.trans (not_lt.mp hlt)
        · exact hall rr hmem

theorem findClosest_eq_some (records : List Row) (t : ℤ) (row : Row)
    (h : findClosest records t = some row) :
    row ∈ records ∧ withinTol t row = true ∧
      ∀ rr ∈ records, withinTol t rr = true → |row.time - t| ≤ |rr.time - t| := by
  unfold findClosest at h
  cases hf : records.filter (withinTol t) with
  | nil => rw [hf] at h; simp at h
  | cons r rest =>
    rw [hf] at h
    simp only [List.foldl_cons] at h
    have h' : rest.foldl (argminStep t) (some r) = some row := by
      simpa [argminStep] using h
    obtain ⟨hm, hb, hall⟩ := argmin_foldl_spec t rest r row h'
    have hrowfil : row ∈ records.filter (withinTol t) := by
      rw [hf]
      rcases hm with rfl | hm
      · exact List.mem_cons_self _ _
      · exact List.mem_cons_of_mem _ hm
    obtain ⟨hmem, htol⟩ := List.mem_filter.mp hrowfil
    refine ⟨hmem, htol, ?_⟩
    intro rr hrr htolrr
    have hrrfil : rr ∈ records.filter (withinTol t) := List.mem_filter.mpr ⟨hrr, htolrr⟩
    rw [hf] at hrrfil
    rcases List.mem_cons.mp hrrfil with rfl | hmem2
    · exact hb
    · exact hall rr hmem2

/-! ## Lemmas about `loadGbfsData` and `predict_xgboost` -/

theorem lagVals_eq (records : List Row) (t : ℤ) :
    lagVals records t = ((findClosest records t).map Row.ocu) ::
      ([(10 : ℤ), 20, 60, 120, 1380, 1440].map
        (fun m => (findClosest records (t - m)).map Row.ocu)) := by
  simp [lagVals, rawLags, lagMinutes]

theorem lagVals_length (records : List Row) (t : ℤ) : (lagVals records t).length = 7 := by
  simp [lagVals, rawLags, lagMinutes]

theorem loadGbfsData_eq_some (fe : Bool) (records : List Row) (t : ℤ) (d : LagData)
    (c : ℕ) (h : loadGbfsData fe records t = (some d, c)) :
    c = SUCCESS ∧ d.capacity = pyCap (firstCapacity (rawLags records t)) := by
  simp only [loadGbfsData] at h
  split at h
  · simp at h
  · split at h
    · simp at h
    · split at h
      · simp at h
      · split at h
        · simp at h
        · rw [Prod.mk.injEq] at h
          obtain ⟨h1, h2⟩ := h
          rw [← Option.some.inj h1]
          exact ⟨h2.symm, rfl⟩

theorem loadGbfsData_eq_none (records : List Row) (t : ℤ) (code : ℕ)
    (h : loadGbfsData true records t = (none, code)) :
    records.isEmpty = true ∨ (lagVals records t).getD 0 none = none ∨
      (ffill (lagVals records t)).any Option.isNone = true := by
  simp only [loadGbfsData] at h
  split at h
  · simp_all
  · split at h
    · exact Or.inl (by assumption)
    · split at h
      · exact Or.inr (Or.inl (by assumption))
      · split at h
        · exact Or.inr (Or.inr (by assumption))
        · simp at h

theorem loadGbfsData_success (records : List Row) (t : ℤ)
    (hsome : (findClosest records t).isSome = true) :
    (loadGbfsData true records t).1.isSome = true ∧
      (loadGbfsData true records t).2 = SUCCESS := by
  obtain ⟨r0, hr0⟩ := Option.isSome_iff_exists.mp hsome
  have hv : lagVals records t = some r0.ocu ::
      ([(10 : ℤ), 20, 60, 120, 1380, 1440].map
        (fun m => (findClosest records (t - m)).map Row.ocu)) := by
    rw [lagVals_eq, hr0]; rfl
  rcases hres : loadGbfsData true records t with ⟨res, code⟩
  cases res with
  | some d =>
    obtain ⟨hc, -⟩ := loadGbfsData_eq_some true records t d code hres
    exact ⟨rfl, hc⟩
  | none =>
    exfalso
    rcases loadGbfsData_eq_none records t code hres with hemp | hhead | hany
    · cases records with
      | nil => simp [findClosest] at hr0
      | cons a l => simp at hemp
    · rw [hv] at hhead
      simp at hhead
    · rw [hv, List.any_eq_true] at hany
      obtain ⟨x, hx, hnone⟩ := hany
      have hs := ffill_isSome_of_head r0.ocu _ x hx
      cases x
      · simp at hs
      · simp at hnone

theorem predict_xgboost_eq_some (ml fe : Bool) (records : List Row) (sinq cosq : ℚ → ℚ)
    (holidays : List ℤ) (en : EnrichedFeats) (ac : ActivityFeats) (w : WeatherFeats)
    (modelOut : ℕ → Option ℚ) (t : ℤ) (r : XgbResult) (c : ℕ)
    (h : predict_xgboost ml fe records sinq cosq holidays en ac w modelOut t = (some r, c)) :
    c = SUCCESS ∧ ∃ d, loadGbfsData fe records t = (some d, SUCCESS) ∧
      r = buildResult d (t - 360) (calculateTemporalFeatures sinq cosq holidays (t - 360))
            modelOut := by
  simp only [predict_xgboost] at h
  split at h
  · simp at h
  · split at h
    · simp at h
    · rename_i d code2 heq
      split at h
      · simp at h
      · rw [Prod.mk.injEq] at h
        obtain ⟨h1, h2⟩ := h
        obtain ⟨hc2, -⟩ := loadGbfsData_eq_some fe records t d code2 heq
        subst hc2
        exact ⟨h2.symm, d, heq, (Option.some.inj h1).symm⟩

theorem clampBikes_bounds (b : ℤ) (cap : ℕ) :
    0 ≤ clampBikes b cap ∧ clampBikes b cap ≤ (cap : ℤ) := by
  unfold clampBikes
  constructor
  · exact le_max_left 0 _
  · exact max_le (Int.natCast_nonneg cap) (min_le_right b (cap : ℤ))

theorem predictHorizon_bounds (tLoc : ℤ) (hz : ℕ) (mo : Option ℚ) (ocu : ℚ) (cap : ℕ) :
    0 ≤ (predictHorizon tLoc hz mo ocu cap).bikes ∧
      (predictHorizon tLoc hz mo ocu cap).bikes ≤ (cap : ℤ) := by
  unfold predictHorizon
  split
  · exact ⟨le_refl 0, Int.natCast_nonneg cap⟩
  · cases mo with
    | some delta => exact clampBikes_bounds _ cap
    | none => exact clampBikes_bounds _ cap

/-! ## The claims -/

/-- C1.  For every station, reference timestamp and weather input, each of
the three horizon predictions a successful `predict_xgboost` call returns
has an integer bike count in `[0, capacity]`, where `capacity` is the one
reported in the same result's `current_state`.  All three branches of the
horizon loop are covered: the normal model branch and the per-horizon
inference-error fallback both clamp with `max(0, min(_, capacity))`, and
the out-of-operating-window override emits 0, which lies in the range
because the capacity is a natural number. -/
theorem c1_predicted_bikes_in_range (ml fe : Bool) (records : List Row)
    (sinq cosq : ℚ → ℚ) (holidays : List ℤ) (en : EnrichedFeats) (ac : ActivityFeats)
    (w : WeatherFeats) (modelOut : ℕ → Option ℚ) (t : ℤ) (r : XgbResult)
    (h : predict_xgboost ml fe records sinq cosq holidays en ac w modelOut t =
      (some r, SUCCESS)) :
    (r.predictions.all fun p =>
      decide (0 ≤ p.bikes) && decide (p.bikes ≤ (r.capacity : ℤ))) = true := by
  obtain ⟨-, d, -, hr⟩ :=
    predict_xgboost_eq_some ml fe records sinq cosq holidays en ac w modelOut t r SUCCESS h
  subst hr
  rw [List.all_eq_true]
  intro p hp
  simp only [buildResult, List.mem_map, List.mem_cons] at hp
  obtain ⟨hz, -, rfl⟩ := hp
  have hb := predictHorizon_bounds (t - 360) hz (modelOut hz) d.ocu d.capacity
  simp only [buildResult, Bool.and_eq_true, decide_eq_true_eq]
  exact hb

unseal Rat.mul Rat.inv Rat.add Rat.sub in
/-- C1 witness: a concrete successful call (one snapshot, 10 of 20 bikes,
mid-morning) whose three predictions all lie in `[0, 20]`. -/
theorem c1_predicted_bikes_in_range_witness :
    (c1wRes.predictions.all fun p =>
      decide (0 ≤ p.bikes) && decide (p.bikes ≤ (c1wRes.capacity : ℤ))) = true :=
  c1_predicted_bikes_in_range true true [⟨1000, 10, 20⟩] (fun _ => 0) (fun _ => 0) []
    enEmpty acEmpty wZero (fun _ => some 0) 1000 c1wRes (by decide)

/-- C2.  For every horizon in {20, 40, 60}, if the future local timestamp
(reference local time + horizon) falls outside the operating window
(`not (hour >= 5 or (hour == 0 and minute <= 30))`), the successful
result contains, for that horizon, a prediction with occupancy exactly 0
and bike count exactly 0, regardless of the model output and of all
other inputs — and every prediction carrying that horizon is that zero
prediction. -/
theorem c2_out_of_window_forces_zero (ml fe : Bool) (records : List Row)
    (sinq cosq : ℚ → ℚ) (holidays : List ℤ) (en : EnrichedFeats) (ac : ActivityFeats)
    (w : WeatherFeats) (modelOut : ℕ → Option ℚ) (t : ℤ) (r : XgbResult) (hz : ℕ)
    (h : predict_xgboost ml fe records sinq cosq holidays en ac w modelOut t =
      (some r, SUCCESS))
    (hmem : hz ∈ ([20, 40, 60] : List ℕ))
    (hop : isOperatingAtTime (t - 360 + (hz : ℤ)) = false) :
    (({ horizon := hz, occupancy := 0, bikes := 0 } : Pred) ∈ r.predictions) ∧
      (r.predictions.all fun p =>
        !(p.horizon == hz) ||
          decide (p = { horizon := hz, occupancy := 0, bikes := 0 })) = true := by
  obtain ⟨-, d, -, hr⟩ :=
    predict_xgboost_eq_some ml fe records sinq cosq holidays en ac w modelOut t r SUCCESS h
  subst hr
  constructor
  · simp only [buildResult, List.mem_map]
    exact ⟨hz, hmem, by simp [predictHorizon, hop]⟩
  · rw [List.all_eq_true]
    intro p hp
    simp only [buildResult, List.mem_map] at hp
    obtain ⟨hz₂, -, rfl⟩ := hp
    cases hh : ((predictHorizon (t - 360) hz₂ (modelOut hz₂) d.ocu d.capacity).horizon == hz) with
    | false => simp
    | true =>
      have hhz : hz₂ = hz := by
        have hhor : (predictHorizon (t - 360) hz₂ (modelOut hz₂) d.ocu d.capacity).horizon =
            hz₂ := by
          unfold predictHorizon
          split
          · rfl
          · cases modelOut hz₂ <;> rfl
        rw [hhor] at hh
        simpa using hh
      subst hhz
      simp [predictHorizon, hop]

unseal Rat.mul Rat.inv Rat.add Rat.sub in
/-- C2 witness: reference time 02:00 local with a matching snapshot; the
20-minute horizon (02:20 local, outside the window) is forced to zero
occupancy and zero bikes even though the model branch would have
predicted 10. -/
theorem c2_out_of_window_forces_zero_witness :
    (({ horizon := 20, occupancy := 0, bikes := 0 } : Pred) ∈ c2wRes.predictions) ∧
      (c2wRes.predictions.all fun p =>
        !(p.horizon == 20) ||
          decide (p = { horizon := 20, occupancy := 0, bikes := 0 })) = true :=
  c2_out_of_window_forces_zero true true [⟨480, 10, 20⟩] (fun _ => 0) (fun _ => 0) []
    enEmpty acEmpty wZero (fun _ => some 0) 480 c2wRes 20 (by decide) (by decide) (by decide)

/-- C9 (implicit).  On every successful call, the station capacity the
result reports (and that C1's clamp uses) is determined by the first
(smallest-offset) matching observation: its `capacity` value, except
that a falsy value — `None` (no match supplied one) or `0` — is replaced
by the hard-coded fallback 20 (`capacity if capacity else 20`). -/
theorem c9_capacity_first_match (ml fe : Bool) (records : List Row)
    (sinq cosq : ℚ → ℚ) (holidays : List ℤ) (en : EnrichedFeats) (ac : ActivityFeats)
    (w : WeatherFeats) (modelOut : ℕ → Option ℚ) (t : ℤ) (r : XgbResult)
    (h : predict_xgboost ml fe records sinq cosq holidays en ac w modelOut t =
      (some r, SUCCESS)) :
    r.capacity = pyCap (firstCapacity (rawLags records t)) := by
  obtain ⟨-, d, hld, hr⟩ :=
    predict_xgboost_eq_some ml fe records sinq cosq holidays en ac w modelOut t r SUCCESS h
  obtain ⟨-, hcap⟩ := loadGbfsData_eq_some fe records t d SUCCESS hld
  subst hr
  simpa [buildResult] using hcap

unseal Rat.mul Rat.inv Rat.add Rat.sub in
/-- C9 witness: the current snapshot reports capacity 7, and the result
reports `pyCap (some 7) = 7`. -/
theorem c9_capacity_first_match_witness :
    c9wRes.capacity = pyCap (firstCapacity (rawLags [⟨1000, 5, 7⟩] 1000)) :=
  c9_capacity_first_match true true [⟨1000, 5, 7⟩] (fun _ => 0) (fun _ => 0) []
    enEmpty acEmpty wZero (fun _ => some 0) 1000 c9wRes (by decide)

/-- C4 counterexample.  The claim says a vector containing any non-finite
value (NaN or ±infinity) never reaches the model; but the validation of
`_assemble_features` only checks `np.isnan`, so a 42-element vector whose
`rain` entry is +infinity passes validation with `SUCCESS` and is handed
to the model. -/
theorem c4_nonfinite_passes_validation :
    (assembleFeatures ocuZeroF tempZeroQ trendsZeroQ enEmpty acEmpty wWithInf 20).2 =
      SUCCESS ∧
    (((assembleFeatures ocuZeroF tempZeroQ trendsZeroQ enEmpty acEmpty wWithInf 20).1.getD
        []).any fun v => !v.isFinite) = true := by
  decide

/-- C4 as amended.  Every vector `_assemble_features` passes on to the
model has exactly 42 elements and no NaN entry (a wrong length or a NaN
fails with the invalid-features code); infinities, however, are not
rejected. -/
theorem c4_length_and_nan_validation (ocuD : OcuFeats) (tempD : TemporalFeats)
    (trendsD : TrendFeats) (en : EnrichedFeats) (ac : ActivityFeats) (w : WeatherFeats)
    (capFallback : ℕ) (X : List FVal)
    (h : (assembleFeatures ocuD tempD trendsD en ac w capFallback).1 = some X) :
    X.length = 42 ∧ X.any FVal.isNan = false := by
  simp only [assembleFeatures] at h
  split at h
  · simp at h
  · split at h
    · simp at h
    · rename_i hnan
      simp only at h
      obtain rfl := (Option.some.inj h).symm
      exact ⟨by simp, Bool.not_eq_true _ ▸ Bool.of_not_eq_true hnan⟩

unseal Rat.mul Rat.inv Rat.add Rat.sub in
/-- C4 witness: a concrete all-finite assembly passes and indeed has 42
NaN-free entries. -/
theorem c4_length_and_nan_validation_witness :
    c4wList.length = 42 ∧ c4wList.any FVal.isNan = false :=
  c4_length_and_nan_validation ocuZeroF tempZeroQ trendsZeroQ enEmpty acEmpty wZero 20
    c4wList (by decide)

/-- C5 counterexample.  The claim's offset set {10, 20, 30, 60, 120, 1380,
1440} matches neither lag resolver: the tolerance-based parquet resolver
(`_load_gbfs_data`) has no 30-minute offset, and the legacy snapshot
service (`LagsService`) has no 1380-minute offset. -/
theorem c5_offsets_mismatch :
    (lagMinutes.contains 30) = false ∧
      ((lagIntervals.map Prod.snd).contains 1380) = false := by
  decide

/-- C5 as amended.  The tolerance-based resolver's configured offsets are
0, 10, 20, 60, 120, 1380, 1440 minutes (current time plus six lags; no
30-minute offset), and for each offset it searches the records within a
±5-minute window, picking an observation at minimal absolute time
difference.  (The legacy `LagsService` uses 10, 20, 30, 60, 120, 1440
with exact-minute snapshot lookup and no tolerance.) -/
theorem c5_tolerance_minimal_diff (records : List Row) (target : ℤ) (row : Row)
    (h : findClosest records target = some row) :
    lagMinutes = [0, 10, 20, 60, 120, 1380, 1440] ∧
    row ∈ records ∧ |row.time - target| ≤ 5 ∧
    (records.all fun rr =>
      !(withinTol target rr) ||
        decide (|row.time - target| ≤ |rr.time - target|)) = true := by
  obtain ⟨hmem, htol, hall⟩ := findClosest_eq_some records target row h
  refine ⟨rfl, hmem, (withinTol_iff target row).mp htol, ?_⟩
  rw [List.all_eq_true]
  intro rr hrr
  cases hw : withinTol target rr with
  | false => simp
  | true => simp [hall rr hrr hw]

/-- C5 witness: among two observations within tolerance of target 0 (at
times 3 and 0), the resolver picks the one at time 0, which minimises
the absolute difference. -/
theorem c5_tolerance_minimal_diff_witness :
    lagMinutes = [0, 10, 20, 60, 120, 1380, 1440] ∧
    (⟨0, 2, 10⟩ : Row) ∈ [(⟨3, 1, 10⟩ : Row), ⟨0, 2, 10⟩] ∧
    |(⟨0, 2, 10⟩ : Row).time - 0| ≤ 5 ∧
    ([(⟨3, 1, 10⟩ : Row), ⟨0, 2, 10⟩].all fun rr =>
      !(withinTol 0 rr) ||
        decide (|(⟨0, 2, 10⟩ : Row).time - 0| ≤ |rr.time - 0|)) = true :=
  c5_tolerance_minimal_diff [⟨3, 1, 10⟩, ⟨0, 2, 10⟩] 0 ⟨0, 2, 10⟩ (by decide)

/-- C6.  For every lag lookup whose current-time observation resolves
(an observation within tolerance of offset 0 exists), the lookup
succeeds with a complete lag set, and each offset's value is the
forward-fill of the raw matches: position `i` carries the value of the
nearest position `j ≤ i` whose offset had a raw match (`backFill` of the
prefix), so a missing offset is filled from the nearest more-recent
(smaller) resolved offset and never from an older one. -/
theorem c6_forward_fill_complete (records : List Row) (t : ℤ)
    (h : (findClosest records t).isSome = true) :
    (loadGbfsData true records t).2 = SUCCESS ∧
    ((List.range 7).all fun i =>
      decide ((ffill (lagVals records t)).getD i none =
        backFill ((lagVals records t).take (i + 1)))) = true := by
  refine ⟨(loadGbfsData_success records t h).2, ?_⟩
  rw [List.all_eq_true]
  intro i hi
  rw [decide_eq_true_eq]
  have hlt : i < (lagVals records t).length := by
    rw [lagVals_length]
    exact List.mem_range.mp hi
  exact ffill_getD _ i hlt

/-- C6 witness: a single observation at the reference minute resolves the
current offset; the lookup succeeds and every lag position satisfies the
forward-fill characterisation. -/
theorem c6_forward_fill_complete_witness :
    (loadGbfsData true [⟨100, 5, 20⟩] 100).2 = SUCCESS ∧
    ((List.range 7).all fun i =>
      decide ((ffill (lagVals [⟨100, 5, 20⟩] 100)).getD i none =
        backFill ((lagVals [⟨100, 5, 20⟩] 100).take (i + 1)))) = true :=
  c6_forward_fill_complete [⟨100, 5, 20⟩] 100 (by decide)

/-- C8.  The temporal features equal the spec's formulas: the code's
time-of-day angle coefficient `(hour + minute/60)/24` equals the spec's
`minute_of_day/1440` with `minute_of_day = 60*hour + minute` (so the
sine/cosine features coincide), the code's day coefficient is the spec's
`weekday/7` (weekday 0 = Monday, Python's and this file's convention),
and the weekend flag is 1 exactly when the weekday is at least 5. -/
theorem c8_temporal_feature_formulas (h m w : ℕ) (sinq cosq : ℚ → ℚ)
    (holidays : List ℤ) (tLoc : ℤ) :
    (calculateTemporalFeatures sinq cosq holidays tLoc).time_sin =
      sinq (timeCoef (hourOf tLoc) (minuteOf tLoc)) ∧
    timeCoef h m = specTimeCoef h m ∧
    dayCoef w = specDayCoef w ∧
    Real.sin (2 * Real.pi * ((timeCoef h m : ℚ) : ℝ)) =
      Real.sin (2 * Real.pi * ((specTimeCoef h m : ℚ) : ℝ)) ∧
    Real.cos (2 * Real.pi * ((timeCoef h m : ℚ) : ℝ)) =
      Real.cos (2 * Real.pi * ((specTimeCoef h m : ℚ) : ℝ)) ∧
    ((calculateTemporalFeatures sinq cosq holidays tLoc).is_weekend = 1 ↔
      5 ≤ weekdayOf tLoc) := by
  have ht : timeCoef h m = specTimeCoef h m := by
    unfold timeCoef specTimeCoef
    push_cast
    field_simp
    ring
  refine ⟨rfl, ht, rfl, by rw [ht], by rw [ht], ?_⟩
  simp only [calculateTemporalFeatures]
  split
  · simpa using ‹5 ≤ weekdayOf tLoc›
  · simp only [zero_ne_one, false_iff]
    assumption

/-- C10 (implicit).  In the legacy lag service (the one the request
handler calls), whenever a `current_bikes` value is supplied the
returned dictionary has no missing values — each offset carries its
snapshot value if one resolved and `current_bikes` otherwise — and no
failure code exists (the function's only outcome is the dictionary);
when `current_bikes` is `None`, each offset carries exactly its snapshot
lookup result, so unresolved offsets remain `None`. -/
theorem c10_legacy_lags_total (lookupBikes : ℤ → String → Option ℕ) (sid : String)
    (t : ℤ) (b : ℕ) :
    ((get_lags_for_station lookupBikes sid t (some b)).all fun kv => kv.2.isSome) = true ∧
    (lagIntervals.all fun iv =>
      decide ((("num_bikes_available_" ++ iv.1),
        some ((lookupBikes (t - 360 - (iv.2 : ℤ)) sid).getD b)) ∈
          get_lags_for_station lookupBikes sid t (some b))) = true ∧
    (lagIntervals.all fun iv =>
      decide ((("num_bikes_available_" ++ iv.1),
        lookupBikes (t - 360 - (iv.2 : ℤ)) sid) ∈
          get_lags_for_station lookupBikes sid t none)) = true := by
  refine ⟨?_, ?_, ?_⟩
  · rw [List.all_eq_true]
    intro kv hkv
    simp only [get_lags_for_station, List.map_map, List.mem_map] at hkv
    obtain ⟨iv, -, rfl⟩ := hkv
    rfl
  · rw [List.all_eq_true]
    intro iv hiv
    rw [decide_eq_true_eq]
    simp only [get_lags_for_station, List.map_map]
    exact List.mem_map_of_mem _ hiv
  · rw [List.all_eq_true]
    intro iv hiv
    rw [decide_eq_true_eq]
    simp only [get_lags_for_station]
    exact List.mem_map_of_mem _ hiv

/-- C3 evaluation at the failing input.  A station that resolves against
the feed with 10 bikes available and capacity 20, models loaded, but no
parquet rows: the handler responds with predictions (0, 0, 0) — not with
the current count 10 repeated — because `predict` reads the absent key
`"bikes_available"` (the station dictionary carries
`"num_bikes_available"`) and so falls back to the `.get` default 0.
And with models not loaded, the same request yields a 500-class error
(`predict` raises `RuntimeError`), not a fallback. -/
theorem c3_handler_fallback_is_zero :
    (predict_availability (some ⟨20, 10, 10⟩) true true [] (fun _ => 0) (fun _ => 0) []
        enEmpty acEmpty wZero (fun _ => none) 1000 =
      ApiResult.ok ⟨10, 20, ⟨0, 0, 0⟩⟩) ∧
    (predict_availability (some ⟨20, 10, 10⟩) false true [] (fun _ => 0) (fun _ => 0) []
        enEmpty acEmpty wZero (fun _ => none) 1000 = ApiResult.serverError) := by
  decide

/-! ## Lemmas about station-code strings -/

theorem lookup_some_mem (m : List (List Char × String)) (k : List Char) (v : String)
    (h : m.lookup k = some v) : (k, v) ∈ m := by
  induction m with
  | nil => simp [List.lookup] at h
  | cons a rest ih =>
    rcases a with ⟨ka, va⟩
    simp only [List.lookup] at h
    split at h
    · rename_i hbeq
      have hk : k = ka := by simpa using hbeq
      obtain rfl := (Option.some.inj h).symm
      exact hk ▸ List.mem_cons_self _ _
    · exact List.mem_cons_of_mem _ (ih h)

theorem dropWhile_replicate_zeros (k : ℕ) (l : List Char) :
    ((List.replicate k '0' ++ l).dropWhile fun ch => ch == '0') =
      l.dropWhile fun ch => ch == '0' := by
  induction k with
  | zero => simp
  | succ n ih => simp [List.replicate_succ, List.dropWhile_cons, ih]

theorem stripZeros_prepend (k : ℕ) (c : List Char) :
    stripZeros (List.replicate k '0' ++ c) = stripZeros c := by
  unfold stripZeros
  rw [dropWhile_replicate_zeros]

theorem zfill3_eq_prepend (c : List Char) (h : headSign c = false) :
    zfill3 c = List.replicate (3 - c.length) '0' ++ c := by
  unfold zfill3
  split
  · rename_i hf
    rw [hf]
    simp
  · cases c with
    | nil => simp
    | cons ch rest =>
      simp only [headSign] at h
      simp [h]

theorem zfill3_len_ge3 (c : List Char) : 3 ≤ (zfill3 c).length := by
  unfold zfill3
  split
  · rename_i hf
    omega
  · rename_i hf
    cases c with
    | nil => simp
    | cons ch rest =>
      simp only [List.length_cons] at hf
      by_cases hsgn : (ch == '+' || ch == '-') = true
      · simp only [if_pos hsgn, List.length_cons, List.length_append, List.length_replicate]
        omega
      · simp only [if_neg hsgn, List.length_cons, List.length_append, List.length_replicate]
        omega

theorem takeWhile_zeros_eq_replicate (c : List Char) :
    (c.takeWhile fun ch => ch == '0') =
      List.replicate (c.takeWhile fun ch => ch == '0').length '0' := by
  induction c with
  | nil => simp
  | cons a t ih =>
    cases ha : (a == '0') with
    | false => simp [List.takeWhile_cons, ha]
    | true =>
      have : a = '0' := by simpa using ha
      subst this
      simp only [List.takeWhile_cons, ha, List.length_cons, List.replicate_succ]
      exact congrArg _ ih

theorem dropWhile_zeros_head (l : List Char) (a : Char) (t : List Char)
    (h : (l.dropWhile fun ch => ch == '0') = a :: t) : (a == '0') = false := by
  induction l with
  | nil => simp at h
  | cons x xs ih =>
    rw [List.dropWhile_cons] at h
    split at h
    · exact ih h
    · rename_i hx
      obtain ⟨rfl, -⟩ := List.cons.inj h
      simpa using hx

theorem stripZeros_idem (c : List Char) : stripZeros (stripZeros c) = stripZeros c := by
  rcases e : c.dropWhile (fun ch => ch == '0') with - | ⟨a, t⟩
  · simp [stripZeros, e]
  · have ha := dropWhile_zeros_head c a t e
    simp [stripZeros, e, List.dropWhile_cons, ha]

theorem zfill3_of_len_le (c : List Char) (h : 3 ≤ c.length) : zfill3 c = c := by
  simp [zfill3, Nat.sub_eq_zero_of_le h]

theorem zfill3_stripZeros_of_len3 (c : List Char) (h : c.length = 3)
    (hns : headSign (stripZeros c) = false) : zfill3 (stripZeros c) = c := by
  rcases e : c.dropWhile (fun ch => ch == '0') with - | ⟨a, t⟩
  · have htw : (c.takeWhile fun ch => ch == '0') = c := by
      have hsplit := List.takeWhile_append_dropWhile (fun ch => ch == '0') c
      rw [e, List.append_nil] at hsplit
      exact hsplit
    have h2 := takeWhile_zeros_eq_replicate c
    rw [htw, h] at h2
    rw [h2]
    decide
  · have hsz : stripZeros c = a :: t := by simp [stripZeros, e]
    have hsplit : (c.takeWhile fun ch => ch == '0') ++ (a :: t) = c := by
      rw [← e]
      exact List.takeWhile_append_dropWhile (fun ch => ch == '0') c
    have hlen : (c.takeWhile fun ch => ch == '0').length + (a :: t).length = 3 := by
      have hl := congrArg List.length hsplit
      rw [List.length_append, h] at hl
      exact hl
    rw [hsz] at hns ⊢
    rw [zfill3_eq_prepend (a :: t) hns]
    have h3 : 3 - (a :: t).length = (c.takeWhile fun ch => ch == '0').length := by omega
    rw [h3, ← takeWhile_zeros_eq_replicate, hsplit]

theorem resolve_eq_of_uniq (m : List (List Char × String)) (c s : List Char) (sid : String)
    (hc : m.lookup c = some sid)
    (huniq : ∀ q₁ ∈ m, ∀ q₂ ∈ m, stripZeros q₁.1 = stripZeros q₂.1 → q₁.1 = q₂.1)
    (hs : stripZeros s = stripZeros c)
    (hsz : stripZeros (zfill3 s) = stripZeros c)
    (hhit : s = c ∨ zfill3 s = c ∨ stripZeros s = c) :
    resolveStationId m s = some sid := by
  have hcm : (c, sid) ∈ m := lookup_some_mem m c sid hc
  cases e1 : m.lookup s with
  | some v =>
    have hsm : (s, v) ∈ m := lookup_some_mem m s v e1
    have hsc : s = c := huniq (s, v) hsm (c, sid) hcm (by simpa using hs)
    rw [hsc, hc] at e1
    simp [resolveStationId, e1, hsc ▸ hc]
  | none =>
    cases e2 : m.lookup (zfill3 s) with
    | some v =>
      have hzm : (zfill3 s, v) ∈ m := lookup_some_mem m _ v e2
      have hzc : zfill3 s = c := by
        refine huniq (zfill3 s, v) hzm (c, sid) hcm ?_
        simpa using hsz
      rw [hzc, hc] at e2
      simp [resolveStationId, e1, hzc, hc]
    | none =>
      cases e3 : m.lookup (stripZeros s) with
      | some v =>
        have hsm : (stripZeros s, v) ∈ m := lookup_some_mem m _ v e3
        have hstc : stripZeros s = c := by
          refine huniq (stripZeros s, v) hsm (c, sid) hcm ?_
          rw [stripZeros_idem]
          simpa using hs
        rw [hstc, hc] at e3
        simp [resolveStationId, e1, e2, hstc, hc]
      | none =>
        exfalso
        rcases hhit with rfl | hz | hst
        · rw [hc] at e1
          exact Option.noConfusion e1
        · rw [hz, hc] at e2
          exact Option.noConfusion e2
        · rw [hst, hc] at e3
          exact Option.noConfusion e3

/-- C7 counterexample.  With the feed carrying both the stripped spelling
`"1"` (station id `"A"`) and the padded spelling `"001"` (station id
`"B"`) as short names, the station code `"001"` is present in the
mapping, yet resolving its zero-padded form yields `"B"` while resolving
its unpadded form yields `"A"`: the round-trip fails. -/
theorem c7_padding_roundtrip_fails :
    ((demoStations.lookup (['0', '0', '1'] : List Char)).isSome = true) ∧
    ((resolveStationId demoStations (zfill3 ['0', '0', '1']) ==
      resolveStationId demoStations (stripZeros ['0', '0', '1'])) = false) := by
  decide

/-- C7 as amended.  For a station code bound in the mapping, resolving its
zero-padded-to-3 form and its stripped form both yield that station's
identifier, provided (a) no two distinct keys of the mapping share a
stripped form (otherwise the exact-match step can pick different
stations for the two spellings), (b) the stored key is canonical: either
exactly 3 characters long or free of leading zeros (otherwise, e.g. the
key `"01"`, neither spelling resolves at all), and (c) the key's
stripped form does not begin with a sign character (`str.zfill` inserts
the padding after a leading `'+'`/`'-'`, so for a key such as `"0-1"`
the stripped form `"-1"` pads to `"-01"` and fails to resolve). -/
theorem c7_roundtrip_canonical_keys (m : List (List Char × String)) (c : List Char)
    (sid : String) (hc : m.lookup c = some sid)
    (huniq : ∀ q₁ ∈ m, ∀ q₂ ∈ m, stripZeros q₁.1 = stripZeros q₂.1 → q₁.1 = q₂.1)
    (hshape : c.length = 3 ∨ stripZeros c = c)
    (hnosign : headSign (stripZeros c) = false) :
    resolveStationId m (zfill3 c) = some sid ∧
      resolveStationId m (stripZeros c) = some sid := by
  have hs1 : stripZeros (zfill3 c) = stripZeros c := by
    rcases hshape with h3 | hsc
    · rw [zfill3_of_len_le c (by omega)]
    · have hcs : headSign c = false := by rw [← hsc]; exact hnosign
      rw [zfill3_eq_prepend c hcs, stripZeros_prepend]
  have hsz1 : stripZeros (zfill3 (zfill3 c)) = stripZeros c := by
    rw [zfill3_of_len_le (zfill3 c) (zfill3_len_ge3 c)]
    exact hs1
  have hsz2 : stripZeros (zfill3 (stripZeros c)) = stripZeros c := by
    rw [zfill3_eq_prepend _ hnosign, stripZeros_prepend]
    exact stripZeros_idem c
  constructor
  · apply resolve_eq_of_uniq m c (zfill3 c) sid hc huniq hs1 hsz1
    rcases hshape with h3 | hsc
    · exact Or.inl (zfill3_of_len_le c (by omega))
    · exact Or.inr (Or.inr (by rw [hs1, hsc]))
  · apply resolve_eq_of_uniq m c (stripZeros c) sid hc huniq (stripZeros_idem c) hsz2
    rcases hshape with h3 | hsc
    · exact Or.inr (Or.inl (zfill3_stripZeros_of_len3 c h3 hnosign))
    · exact Or.inl hsc

/-- C7 witness: a mapping with the single canonical key `"001"` (3
characters, digit-only stripped form `"1"`); both the padded and the
stripped spelling resolve to its identifier. -/
theorem c7_roundtrip_canonical_keys_witness :
    resolveStationId [((['0', '0', '1'] : List Char), "X")] (zfill3 ['0', '0', '1']) =
      some "X" ∧
    resolveStationId [((['0', '0', '1'] : List Char), "X")] (stripZeros ['0', '0', '1']) =
      some "X" :=
  c7_roundtrip_canonical_keys [(['0', '0', '1'], "X")] ['0', '0', '1'] "X" (by decide)
    (by decide) (Or.inl (by decide)) (by decide)

end Ecobici
